import Mathlib

/-!
# tinyProxy: the custom DNS resolver of the SOCKS5 proxy (main.go)

A shallow embedding of `CustomResolver.Resolve` and of the closure it installs as
`net.Resolver.Dial`, written as explicit state passing over a `World` that records the
clock, the cancelled contexts and the network calls made. Of the Go standard library,
`net.IP.To4` and `context.WithTimeout` are embedded in full; what goes on inside
`net.Resolver.LookupIPAddr` is a parameter, `Env`.
-/

set_option autoImplicit false

namespace TinyProxy

/-! ## net.IP -/

/-- One octet. -/
abbrev Byte := Fin 256

/-- Go `net.IP`, a byte slice: `none` is the nil slice, `some bs` a non-nil slice. -/
abbrev IP := Option (List Byte)

/-- Go `len(ip)`; the nil slice has length 0. -/
def ipLen : IP → Nat
  | none => 0
  | some bs => bs.length

/-- Go standard library `isZeros(p)`: every byte of `p` is zero. -/
def isZeros (p : List Byte) : Bool :=
  p.all (fun b => b == 0)

/-- Go standard library `net.IP.To4`:
a 4-byte slice is returned as it is, a 16-byte slice whose first ten bytes are zero and
whose bytes 10 and 11 are `0xff` gives `ip[12:16]`, everything else gives nil. -/
def To4 (ip : IP) : IP :=
  match ip with
  | none => none
  | some bs =>
    if bs.length = 4 then some bs
    else if bs.length = 16 && isZeros (bs.take 10)
        && bs.get? 10 == some 0xff && bs.get? 11 == some 0xff then
      some ((bs.drop 12).take 4)
    else none

/-- Go `net.IPAddr`. -/
structure IPAddr where
  IP : IP
  Zone : String
  deriving DecidableEq, Repr

/-- An entry is an IPv4 address when `To4` of it is non-nil. -/
def isIPv4 (ip : IP) : Prop := To4 ip ≠ none

/-- An entry is an IPv6 address when it has 16 bytes and is not an IPv4 address. -/
def isIPv6 (ip : IP) : Prop := ipLen ip = 16 ∧ To4 ip = none

instance (ip : IP) : Decidable (isIPv4 ip) := by unfold isIPv4; infer_instance

instance (ip : IP) : Decidable (isIPv6 ip) := by unfold isIPv6; infer_instance

/-! ## context -/

/-- Instants and durations in nanoseconds, as Go `time.Duration` counts them. -/
abbrev Time := Int

/-- Go `time.Second`. -/
def Second : Time := 1000000000

/-- Go `context.Context` values, as far as deadlines and cancellation go.
Every derived context carries the key of its own cancel function. -/
inductive Context where
  /-- The root `context.Background()`: no deadline, never cancelled. -/
  | background : Context
  /-- A child made by `context.WithCancel(parent)`. -/
  | cancelCtx (parent : Context) (key : Nat) : Context
  /-- A child made by `context.WithDeadline(parent, deadline)`. -/
  | timerCtx (parent : Context) (key : Nat) (deadline : Time) : Context
  deriving DecidableEq, Repr

/-- Go `ctx.Deadline()`: a timer context reports its own deadline, a cancel context
asks its parent, the background context has none. -/
def Context.Deadline : Context → Option Time
  | .background => none
  | .cancelCtx p _ => p.Deadline
  | .timerCtx _ _ d => some d

/-- Some cancel function on the chain from `c` up to the root has been called
(`cancelled` lists the keys whose cancel function has run). -/
def Context.canceled (cancelled : List Nat) : Context → Bool
  | .background => false
  | .cancelCtx p k => cancelled.contains k || p.canceled cancelled
  | .timerCtx p k _ => cancelled.contains k || p.canceled cancelled

/-- Some timer on the chain from `c` up to the root has fired at instant `now`. -/
def Context.expired (now : Time) : Context → Bool
  | .background => false
  | .cancelCtx p _ => p.expired now
  | .timerCtx p _ d => decide (d ≤ now) || p.expired now

/-- Every cancel key on the chain from `c` up to the root is below `n`. -/
def Context.keysBelow (n : Nat) : Context → Bool
  | .background => true
  | .cancelCtx p k => decide (k < n) && p.keysBelow n
  | .timerCtx p k _ => decide (k < n) && p.keysBelow n

/-! ## The world -/

/-- What `net.Dialer.DialContext` was asked to open. -/
structure DialCall where
  timeout : Time
  ctx : Context
  network : String
  address : String
  deriving DecidableEq, Repr

/-- The state Resolve runs in: the clock, the next unused cancel key, the keys whose
cancel function has run, and the dial calls and lookups made so far. -/
structure World where
  now : Time
  nextKey : Nat
  cancelled : List Nat
  dialled : List DialCall
  lookups : List (Context × String)
  deriving DecidableEq, Repr

/-- Go `ctx.Done()` is closed: the context was cancelled or a deadline has passed. -/
def Context.Done (c : Context) (w : World) : Bool :=
  c.canceled w.cancelled || c.expired w.now

/-- The cancel function of the context with key `k`. -/
def cancelKey (k : Nat) (w : World) : World :=
  { w with cancelled := k :: w.cancelled }

/-- Go `context.WithDeadline(parent, d)`: when the parent deadline is already before `d`
the result is `WithCancel(parent)`, otherwise a timer context with deadline `d`.
Returns the child, its cancel function and the world with the key used up. -/
def WithDeadline (parent : Context) (d : Time) (w : World) :
    Context × (World → World) × World :=
  let k := w.nextKey
  let w1 := { w with nextKey := k + 1 }
  match parent.Deadline with
  | some cur =>
    if cur < d then (.cancelCtx parent k, cancelKey k, w1)
    else (.timerCtx parent k d, cancelKey k, w1)
  | none => (.timerCtx parent k d, cancelKey k, w1)

/-- Go `context.WithTimeout(parent, timeout)`, which is
`WithDeadline(parent, time.Now().Add(timeout))`. -/
def WithTimeout (parent : Context) (timeout : Time) (w : World) :
    Context × (World → World) × World :=
  WithDeadline parent (w.now + timeout) w

/-! ## Errors -/

/-- An error reported by `net.Resolver.LookupIPAddr`: its text and what its
`Timeout()` method answers. -/
structure LookupError where
  msg : String
  timeout : Bool
  deriving DecidableEq, Repr

/-- The Go `error` values Resolve can return: its own package-level value
`ErrAddressNotSupported`, made by `errors.New`, or an error of the lookup. -/
inductive Error where
  | ErrAddressNotSupported : Error
  | lookup (e : LookupError) : Error
  deriving DecidableEq, Repr

/-- Go `err.Error()`, the text of the error. -/
def Error.text : Error → String
  | .ErrAddressNotSupported => "address type not supported"
  | .lookup e => e.msg

/-- Go `net.Resolver`, with the two fields main.go sets. The Go `Dial` field returns a
connection; here it returns the dial call it makes. `PreferGo` selects the built-in
resolver, the one that dials through `Dial`. -/
structure Resolver where
  PreferGo : Bool
  Dial : Context → String → String → DialCall

/-- What lies outside the program during one lookup: the library code behind
`LookupIPAddr` and the network. For a lookup of `host` under `ctx`, `asks` lists the
calls the built-in resolver makes to `Dial`, each with the context the library hands to
`Dial` (one it makes itself), the network and the address; `answer` tells, from the dial
calls made, how long the lookup takes and what it reports. How a host is resolved (a
literal address answered at once, the hosts file, the DNS exchange, the cut-off when
the context is done) is not embedded: it is this parameter. -/
structure Env where
  asks : Context → String → List (Context × String × String)
  answer : Context → String → List DialCall → Nat × Except LookupError (List IPAddr)

/-- The dial calls made through `res.Dial` during a lookup of `host` under `ctx`. -/
def Resolver.dials (env : Env) (res : Resolver) (ctx : Context) (host : String) :
    List DialCall :=
  (env.asks ctx host).map (fun a => res.Dial a.1 a.2.1 a.2.2)

/-- Go `net.Resolver.LookupIPAddr(ctx, host)`, as far as the caller sees it: the lookup
is made under `ctx`, the built-in resolver dials through `Dial`, time passes, and an
outcome is reported. -/
def LookupIPAddr (env : Env) (res : Resolver) (ctx : Context) (host : String) (w : World) :
    Except LookupError (List IPAddr) × World :=
  let dials := res.dials env ctx host
  let ans := env.answer ctx host dials
  (ans.2,
    { w with
      now := w.now + ans.1
      dialled := w.dialled ++ dials
      lookups := w.lookups ++ [(ctx, host)] })

/-! ## main.go -/

/-- The struct `CustomResolver` of main.go. -/
structure CustomResolver where
  upstreamDNS : String
  deriving DecidableEq, Repr

/-- Go `net.Dialer.DialContext` of a dialer with the given timeout. -/
def DialContext (timeout : Time) (ctx : Context) (network address : String) : DialCall :=
  { timeout := timeout, ctx := ctx, network := network, address := address }

/-- Lines 29-35 of main.go: the resolver Resolve builds. Its `Dial` passes on the
context it is handed and ignores the network and the address it is asked for. -/
def CustomResolver.resolver (r : CustomResolver) : Resolver :=
  { PreferGo := true
    Dial := fun ctx _network _address => DialContext (3 * Second) ctx "udp" r.upstreamDNS }

/-- Lines 44-48 of main.go: the loop over `addrs`; it returns the first non-nil
`addr.IP.To4()`, or nil when it runs to the end. -/
def rangeAddrs : List IPAddr → IP
  | [] => none
  | addr :: rest =>
    match To4 addr.IP with
    | some ipv4 => some ipv4
    | none => rangeAddrs rest

/-- What Resolve returns. -/
structure Result where
  ctx : Context
  ip : IP
  err : Option Error
  deriving DecidableEq, Repr

/-- The state of Resolve after line 38 of main.go: the derived context, its cancel
function, what the lookup reported and the world then. -/
structure Query where
  ctx : Context
  cancel : World → World
  outcome : Except LookupError (List IPAddr)
  world : World

/-- Lines 25-38 of main.go: derive the timeout context (which replaces `ctx`), build
the resolver and run the lookup under the derived context. -/
def CustomResolver.query (env : Env) (r : CustomResolver) (ctx : Context) (name : String)
    (w : World) : Query :=
  let derived := WithTimeout ctx (5 * Second) w
  let looked := LookupIPAddr env r.resolver derived.1 name derived.2.2
  { ctx := derived.1, cancel := derived.2.1, outcome := looked.1, world := looked.2 }

/-- Lines 39-55 of main.go: the return values, chosen from the lookup outcome. -/
def CustomResolver.choose (ctx : Context) : Except LookupError (List IPAddr) → Result
  | .error err => { ctx := ctx, ip := none, err := some (.lookup err) }
  | .ok addrs =>
    match rangeAddrs addrs with
    | some ipv4 => { ctx := ctx, ip := some ipv4, err := none }
    | none =>
      match addrs with
      | addr0 :: _ => { ctx := ctx, ip := addr0.IP, err := none }
      | [] => { ctx := ctx, ip := none, err := some .ErrAddressNotSupported }

/-- The method `CustomResolver.Resolve` of main.go: the return values and the world the
caller gets back, the deferred `cancel()` having run. -/
def CustomResolver.Resolve (env : Env) (r : CustomResolver) (ctx : Context) (name : String)
    (w : World) : Result × World :=
  let q := r.query env ctx name w
  (CustomResolver.choose q.ctx q.outcome, q.cancel q.world)

/-- The resolver main.go configures. -/
def mainResolver : CustomResolver := { upstreamDNS := "223.5.5.5:53" }

/-! ## Sample inputs -/

/-- The IPv4 address 93.184.216.34 in 4-byte form. -/
def sampleV4 : IPAddr := { IP := some [93, 184, 216, 34], Zone := "" }

/-- A second IPv4 address, 10.0.0.1, in 16-byte IPv4-mapped form. -/
def sampleMapped : IPAddr :=
  { IP := some [0, 0, 0, 0, 0, 0, 0, 0, 0, 0, 0xff, 0xff, 10, 0, 0, 1], Zone := "" }

/-- The IPv6 address 2001:db8::1. -/
def sampleV6 : IPAddr :=
  { IP := some [0x20, 0x01, 0x0d, 0xb8, 0, 0, 0, 0, 0, 0, 0, 0, 0, 0, 0, 1], Zone := "" }

/-- A second IPv6 address, fe80::2, with a zone. -/
def sampleV6b : IPAddr :=
  { IP := some [0xfe, 0x80, 0, 0, 0, 0, 0, 0, 0, 0, 0, 0, 0, 0, 0, 2], Zone := "eth0" }

/-- A fresh world at instant 0 in which key 0 has been handed out. -/
def sampleWorld : World :=
  { now := 0, nextKey := 1, cancelled := [], dialled := [], lookups := [] }

/-- A caller context with a deadline 2 seconds away. -/
def sampleCtx : Context := .timerCtx .background 0 (2 * Second)

/-- A context of the kind the library hands to `Dial`: detached from the context of the
lookup, with a deadline of its own. -/
def sampleDialCtx : Context := .timerCtx (.cancelCtx .background 100) 101 (5 * Second)

/-- The error a lookup of example.com reports when its context is cancelled. -/
def sampleCanceled : LookupError :=
  { msg := "lookup example.com: operation was canceled", timeout := false }

/-- A network whose lookup machinery asks for one UDP and one TCP connection to
192.168.1.1:53 and whose lookup takes `dur` nanoseconds and reports `out`. -/
def sampleEnv (dur : Nat) (out : Except LookupError (List IPAddr)) : Env :=
  { asks := fun _ _ =>
      [(sampleDialCtx, "udp", "192.168.1.1:53"), (sampleDialCtx, "tcp", "192.168.1.1:53")]
    answer := fun _ _ _ => (dur, out) }

/-! ## Facts about the library functions -/

theorem To4_length (ip : IP) (v : List Byte) (h : To4 ip = some v) : v.length = 4 := by
  cases ip with
  | none => simp [To4] at h
  | some bs =>
    simp only [To4] at h
    split at h
    · rename_i h4
      cases h
      exact h4
    · split at h
      · rename_i _ h16
        simp only [Bool.and_eq_true, decide_eq_true_eq] at h16
        cases h
        simp [List.length_take, List.length_drop, h16.1.1.1]
      · cases h

theorem To4_of_length_four (v : List Byte) (h : v.length = 4) : To4 (some v) = some v := by
  simp [To4, h]

/-- The two ways `To4` gives a non-nil result: the slice itself when it has 4 bytes, or
bytes 12 to 15 of a 16-byte slice. -/
theorem To4_cases (ip : IP) (v : List Byte) (h : To4 ip = some v) :
    (ip = some v ∧ v.length = 4) ∨
    (∃ bs, ip = some bs ∧ bs.length = 16 ∧ isZeros (bs.take 10) = true ∧
      bs.get? 10 = some 0xff ∧ bs.get? 11 = some 0xff ∧ v = (bs.drop 12).take 4) := by
  cases ip with
  | none => simp [To4] at h
  | some bs =>
    simp only [To4] at h
    split at h
    · rename_i h4
      cases h
      exact Or.inl ⟨rfl, h4⟩
    · split at h
      · rename_i _ h16
        simp only [Bool.and_eq_true, decide_eq_true_eq, beq_iff_eq] at h16
        cases h
        exact Or.inr ⟨bs, rfl, h16.1.1.1, h16.1.1.2, h16.1.2, h16.2, rfl⟩
      · cases h

/-! ## Facts about the loop -/

theorem rangeAddrs_eq_none (addrs : List IPAddr) :
    rangeAddrs addrs = none ↔ ∀ a ∈ addrs, To4 a.IP = none := by
  induction addrs with
  | nil => simp [rangeAddrs]
  | cons a rest ih =>
    cases h : To4 a.IP with
    | none => simp [rangeAddrs, h, ih]
    | some v => simp [rangeAddrs, h]

theorem rangeAddrs_eq_some (addrs : List IPAddr) (v : List Byte)
    (h : rangeAddrs addrs = some v) :
    ∃ i, ∃ hi : i < addrs.length, To4 (addrs[i]).IP = some v ∧
      ∀ j, ∀ hj : j < addrs.length, j < i → To4 (addrs[j]).IP = none := by
  induction addrs with
  | nil => simp [rangeAddrs] at h
  | cons a rest ih =>
    cases h4 : To4 a.IP with
    | some u =>
      simp only [rangeAddrs, h4, Option.some.injEq] at h
      subst h
      exact ⟨0, by simp, by simpa using h4, fun j _ hj => absurd hj (Nat.not_lt_zero j)⟩
    | none =>
      simp only [rangeAddrs, h4] at h
      obtain ⟨i, hi, hv, hbefore⟩ := ih h
      refine ⟨i + 1, by simpa using hi, by simpa using hv, ?_⟩
      intro j hj hlt
      cases j with
      | zero => simpa using h4
      | succ j =>
        simpa using hbefore j (by simpa using hj) (by omega)

theorem choose_ok_some (c : Context) (addrs : List IPAddr) (v : List Byte)
    (h : rangeAddrs addrs = some v) :
    CustomResolver.choose c (.ok addrs) = { ctx := c, ip := some v, err := none } := by
  simp [CustomResolver.choose, h]

theorem choose_ok_cons (c : Context) (a : IPAddr) (rest : List IPAddr)
    (h : rangeAddrs (a :: rest) = none) :
    CustomResolver.choose c (.ok (a :: rest)) = { ctx := c, ip := a.IP, err := none } := by
  simp [CustomResolver.choose, h]

theorem choose_ok_nil (c : Context) :
    CustomResolver.choose c (.ok []) =
      { ctx := c, ip := none, err := some .ErrAddressNotSupported } := by
  simp [CustomResolver.choose, rangeAddrs]

theorem choose_error (c : Context) (e : LookupError) :
    CustomResolver.choose c (.error e) = { ctx := c, ip := none, err := some (.lookup e) } :=
  rfl

theorem choose_ctx (c : Context) (o : Except LookupError (List IPAddr)) :
    (CustomResolver.choose c o).ctx = c := by
  cases o with
  | error e => rfl
  | ok addrs =>
    cases hr : rangeAddrs addrs with
    | some v => rw [choose_ok_some c addrs v hr]
    | none =>
      cases addrs with
      | nil => rw [choose_ok_nil]
      | cons a rest => rw [choose_ok_cons c a rest hr]

theorem Resolve_result (env : Env) (r : CustomResolver) (ctx : Context) (name : String)
    (w : World) :
    (r.Resolve env ctx name w).1 =
      CustomResolver.choose (r.query env ctx name w).ctx (r.query env ctx name w).outcome :=
  rfl

/-! ## Facts about the derived context and the lookup -/

theorem WithTimeout_world (ctx : Context) (t : Time) (w : World) :
    (WithTimeout ctx t w).2.2 = { w with nextKey := w.nextKey + 1 } := by
  unfold WithTimeout WithDeadline
  split
  · split <;> rfl
  · rfl

theorem WithTimeout_cancel (ctx : Context) (t : Time) (w : World) :
    (WithTimeout ctx t w).2.1 = cancelKey w.nextKey := by
  unfold WithTimeout WithDeadline
  split
  · split <;> rfl
  · rfl

theorem WithTimeout_child (ctx : Context) (t : Time) (w : World) :
    (WithTimeout ctx t w).1 = .cancelCtx ctx w.nextKey ∨
    (WithTimeout ctx t w).1 = .timerCtx ctx w.nextKey (w.now + t) := by
  unfold WithTimeout WithDeadline
  split
  · split
    · exact Or.inl rfl
    · exact Or.inr rfl
  · exact Or.inr rfl

theorem WithTimeout_Deadline (ctx : Context) (t : Time) (w : World) :
    ((WithTimeout ctx t w).1).Deadline =
      some (match ctx.Deadline with
        | some cd => min cd (w.now + t)
        | none => w.now + t) := by
  unfold WithTimeout WithDeadline
  cases hd : ctx.Deadline with
  | none => simp [Context.Deadline]
  | some cd =>
    by_cases hlt : cd < w.now + t
    · simp [hlt, Context.Deadline, hd, min_eq_left (le_of_lt hlt)]
    · simp [hlt, Context.Deadline, min_eq_right (not_lt.1 hlt)]

theorem LookupIPAddr_lookups (env : Env) (res : Resolver) (c : Context) (host : String)
    (w : World) : (LookupIPAddr env res c host w).2.lookups = w.lookups ++ [(c, host)] :=
  rfl

theorem LookupIPAddr_dialled (env : Env) (res : Resolver) (c : Context) (host : String)
    (w : World) :
    (LookupIPAddr env res c host w).2.dialled = w.dialled ++ res.dials env c host :=
  rfl

theorem LookupIPAddr_cancelled (env : Env) (res : Resolver) (c : Context) (host : String)
    (w : World) : (LookupIPAddr env res c host w).2.cancelled = w.cancelled :=
  rfl

theorem canceled_of_keysBelow (c : Context) (n : Nat) (ks : List Nat)
    (h : c.keysBelow n = true) : c.canceled (n :: ks) = c.canceled ks := by
  induction c with
  | background => rfl
  | cancelCtx p k ih =>
    simp only [Context.keysBelow, Bool.and_eq_true, decide_eq_true_eq] at h
    obtain ⟨hk, hp⟩ := h
    have hne : k ≠ n := Nat.ne_of_lt hk
    simp [Context.canceled, ih hp, hne]
  | timerCtx p k d ih =>
    simp only [Context.keysBelow, Bool.and_eq_true, decide_eq_true_eq] at h
    obtain ⟨hk, hp⟩ := h
    have hne : k ≠ n := Nat.ne_of_lt hk
    simp [Context.canceled, ih hp, hne]

theorem cancelCtx_ne_parent (p : Context) (k : Nat) : Context.cancelCtx p k ≠ p := by
  intro h
  have hs := congrArg sizeOf h
  simp at hs
  omega

theorem timerCtx_ne_parent (p : Context) (k : Nat) (d : Time) :
    Context.timerCtx p k d ≠ p := by
  intro h
  have hs := congrArg sizeOf h
  simp at hs
  omega

theorem query_ctx (env : Env) (r : CustomResolver) (ctx : Context) (name : String)
    (w : World) : (r.query env ctx name w).ctx = (WithTimeout ctx (5 * Second) w).1 :=
  rfl

theorem query_outcome (env : Env) (r : CustomResolver) (ctx : Context) (name : String)
    (w : World) :
    (r.query env ctx name w).outcome =
      (LookupIPAddr env r.resolver (r.query env ctx name w).ctx name
        { w with nextKey := w.nextKey + 1 }).1 := by
  simp [CustomResolver.query, WithTimeout_world]

theorem Resolve_world (env : Env) (r : CustomResolver) (ctx : Context) (name : String)
    (w : World) :
    (r.Resolve env ctx name w).2 =
      cancelKey w.nextKey
        (LookupIPAddr env r.resolver (r.query env ctx name w).ctx name
          { w with nextKey := w.nextKey + 1 }).2 := by
  simp [CustomResolver.Resolve, CustomResolver.query, WithTimeout_world, WithTimeout_cancel]

/-! ## Address selection -/

/-- C1: when a successful lookup returns a list holding at least one IPv4 address and at
least one IPv6 address, in any order, Resolve returns a nil error and an IPv4 address
(one that `To4` accepts, in 4-byte form). -/
theorem Resolve_both_families_gives_ipv4 (env : Env) (r : CustomResolver) (ctx : Context)
    (name : String) (w : World) (addrs : List IPAddr)
    (hlook : (r.query env ctx name w).outcome = .ok addrs)
    (h4 : ∃ a ∈ addrs, isIPv4 a.IP) (_h6 : ∃ a ∈ addrs, isIPv6 a.IP) :
    (r.Resolve env ctx name w).1.err = none ∧
    isIPv4 (r.Resolve env ctx name w).1.ip ∧
    ipLen (r.Resolve env ctx name w).1.ip = 4 := by
  have hres := Resolve_result env r ctx name w
  rw [hlook] at hres
  obtain ⟨a, ha, ha4⟩ := h4
  cases hr : rangeAddrs addrs with
  | none => exact absurd ((rangeAddrs_eq_none addrs).1 hr a ha) ha4
  | some v =>
    obtain ⟨i, hi, hv, _⟩ := rangeAddrs_eq_some addrs v hr
    have hlen := To4_length _ v hv
    rw [hres, choose_ok_some _ addrs v hr]
    exact ⟨rfl, by simp [isIPv4, To4_of_length_four v hlen], by simpa [ipLen] using hlen⟩

/-- Witness of C1, with both IPv6 entries placed before every IPv4 entry. -/
theorem Resolve_both_families_gives_ipv4_witness :
    (mainResolver.Resolve (sampleEnv 1000 (.ok [sampleV6, sampleV6b, sampleMapped, sampleV4]))
        sampleCtx "example.com" sampleWorld).1.err = none ∧
    isIPv4 (mainResolver.Resolve
        (sampleEnv 1000 (.ok [sampleV6, sampleV6b, sampleMapped, sampleV4]))
        sampleCtx "example.com" sampleWorld).1.ip ∧
    ipLen (mainResolver.Resolve
        (sampleEnv 1000 (.ok [sampleV6, sampleV6b, sampleMapped, sampleV4]))
        sampleCtx "example.com" sampleWorld).1.ip = 4 :=
  Resolve_both_families_gives_ipv4
    (sampleEnv 1000 (.ok [sampleV6, sampleV6b, sampleMapped, sampleV4])) mainResolver
    sampleCtx "example.com" sampleWorld [sampleV6, sampleV6b, sampleMapped, sampleV4] rfl
    ⟨sampleV4, by decide, by decide⟩ ⟨sampleV6b, by decide, by decide⟩

/-- C2: when a successful lookup returns a list holding at least one IPv4 address, the
address Resolve returns is `To4` of the entry with the smallest index whose `To4` is
non-nil; it has 4 bytes and the error is nil. -/
theorem Resolve_picks_first_ipv4 (env : Env) (r : CustomResolver) (ctx : Context)
    (name : String) (w : World) (addrs : List IPAddr)
    (hlook : (r.query env ctx name w).outcome = .ok addrs)
    (h4 : ∃ a ∈ addrs, isIPv4 a.IP) :
    ∃ i, ∃ hi : i < addrs.length,
      isIPv4 (addrs[i]).IP ∧
      (∀ j, ∀ hj : j < addrs.length, j < i → ¬ isIPv4 (addrs[j]).IP) ∧
      (r.Resolve env ctx name w).1.ip = To4 (addrs[i]).IP ∧
      ipLen (r.Resolve env ctx name w).1.ip = 4 ∧
      (r.Resolve env ctx name w).1.err = none := by
  have hres := Resolve_result env r ctx name w
  rw [hlook] at hres
  obtain ⟨a, ha, ha4⟩ := h4
  cases hr : rangeAddrs addrs with
  | none => exact absurd ((rangeAddrs_eq_none addrs).1 hr a ha) ha4
  | some v =>
    obtain ⟨i, hi, hv, hbefore⟩ := rangeAddrs_eq_some addrs v hr
    have hlen := To4_length _ v hv
    rw [hres, choose_ok_some _ addrs v hr]
    refine ⟨i, hi, by simp [isIPv4, hv], ?_, hv.symm, by simpa [ipLen] using hlen, rfl⟩
    intro j hj hlt
    simp [isIPv4, hbefore j hj hlt]

/-- Witness of C2: the mapped entry at index 1 is chosen, not the 4-byte entry after it. -/
theorem Resolve_picks_first_ipv4_witness :
    ∃ i, ∃ hi : i < [sampleV6, sampleMapped, sampleV4].length,
      isIPv4 ([sampleV6, sampleMapped, sampleV4][i]).IP ∧
      (∀ j, ∀ hj : j < [sampleV6, sampleMapped, sampleV4].length, j < i →
        ¬ isIPv4 ([sampleV6, sampleMapped, sampleV4][j]).IP) ∧
      (mainResolver.Resolve (sampleEnv 1000 (.ok [sampleV6, sampleMapped, sampleV4]))
        sampleCtx "example.com" sampleWorld).1.ip =
          To4 ([sampleV6, sampleMapped, sampleV4][i]).IP ∧
      ipLen (mainResolver.Resolve (sampleEnv 1000 (.ok [sampleV6, sampleMapped, sampleV4]))
        sampleCtx "example.com" sampleWorld).1.ip = 4 ∧
      (mainResolver.Resolve (sampleEnv 1000 (.ok [sampleV6, sampleMapped, sampleV4]))
        sampleCtx "example.com" sampleWorld).1.err = none :=
  Resolve_picks_first_ipv4 (sampleEnv 1000 (.ok [sampleV6, sampleMapped, sampleV4]))
    mainResolver sampleCtx "example.com" sampleWorld [sampleV6, sampleMapped, sampleV4] rfl
    ⟨sampleV4, by decide, by decide⟩

/-- C3: when a successful lookup returns a non-empty list in which no entry is an IPv4
address, Resolve returns a nil error and the IP of the first entry unchanged; that IP
is the IP of an entry of the list, and an IPv6 address when every entry is one. -/
theorem Resolve_falls_back_to_first_entry (env : Env) (r : CustomResolver) (ctx : Context)
    (name : String) (w : World) (addrs : List IPAddr)
    (hlook : (r.query env ctx name w).outcome = .ok addrs)
    (hne : addrs ≠ []) (hno4 : ∀ a ∈ addrs, ¬ isIPv4 a.IP) :
    (r.Resolve env ctx name w).1.err = none ∧
    (r.Resolve env ctx name w).1.ip = (addrs.head hne).IP ∧
    (∃ a ∈ addrs, (r.Resolve env ctx name w).1.ip = a.IP) ∧
    ((∀ a ∈ addrs, isIPv6 a.IP) → isIPv6 (r.Resolve env ctx name w).1.ip) := by
  have hres := Resolve_result env r ctx name w
  rw [hlook] at hres
  have hr : rangeAddrs addrs = none :=
    (rangeAddrs_eq_none addrs).2 (fun a ha => by simpa [isIPv4] using hno4 a ha)
  cases addrs with
  | nil => exact absurd rfl hne
  | cons a rest =>
    rw [hres, choose_ok_cons _ a rest hr]
    exact ⟨rfl, rfl, ⟨a, by simp, rfl⟩, fun h6 => h6 a (by simp)⟩

/-- Witness of C3 on a list of two IPv6 addresses. -/
theorem Resolve_falls_back_to_first_entry_witness :
    (mainResolver.Resolve (sampleEnv 1000 (.ok [sampleV6b, sampleV6]))
        sampleCtx "example.com" sampleWorld).1.err = none ∧
    (mainResolver.Resolve (sampleEnv 1000 (.ok [sampleV6b, sampleV6]))
        sampleCtx "example.com" sampleWorld).1.ip =
      ([sampleV6b, sampleV6].head (by decide)).IP ∧
    (∃ a ∈ [sampleV6b, sampleV6],
      (mainResolver.Resolve (sampleEnv 1000 (.ok [sampleV6b, sampleV6]))
        sampleCtx "example.com" sampleWorld).1.ip = a.IP) ∧
    ((∀ a ∈ [sampleV6b, sampleV6], isIPv6 a.IP) →
      isIPv6 (mainResolver.Resolve (sampleEnv 1000 (.ok [sampleV6b, sampleV6]))
        sampleCtx "example.com" sampleWorld).1.ip) :=
  Resolve_falls_back_to_first_entry (sampleEnv 1000 (.ok [sampleV6b, sampleV6]))
    mainResolver sampleCtx "example.com" sampleWorld [sampleV6b, sampleV6] rfl
    (by decide) (by decide)

/-- C4: when the lookup succeeds with an empty list, Resolve returns the nil IP and
fails with its own error for that case, the package value `ErrAddressNotSupported`
(text "address type not supported"), which is no error of the lookup. -/
theorem Resolve_empty_result_fails (env : Env) (r : CustomResolver) (ctx : Context)
    (name : String) (w : World)
    (hlook : (r.query env ctx name w).outcome = .ok []) :
    (r.Resolve env ctx name w).1.ip = none ∧
    (r.Resolve env ctx name w).1.err = some .ErrAddressNotSupported ∧
    (r.Resolve env ctx name w).1.err.map Error.text = some "address type not supported" ∧
    ∀ e, (r.Resolve env ctx name w).1.err ≠ some (.lookup e) := by
  have hres := Resolve_result env r ctx name w
  rw [hlook, choose_ok_nil] at hres
  rw [hres]
  exact ⟨rfl, rfl, rfl, fun e h => by cases h⟩

/-- Witness of C4. -/
theorem Resolve_empty_result_fails_witness :
    (mainResolver.Resolve (sampleEnv 1000 (.ok [])) sampleCtx "example.com"
        sampleWorld).1.ip = none ∧
    (mainResolver.Resolve (sampleEnv 1000 (.ok [])) sampleCtx "example.com"
        sampleWorld).1.err = some .ErrAddressNotSupported ∧
    (mainResolver.Resolve (sampleEnv 1000 (.ok [])) sampleCtx "example.com"
        sampleWorld).1.err.map Error.text = some "address type not supported" ∧
    ∀ e, (mainResolver.Resolve (sampleEnv 1000 (.ok [])) sampleCtx "example.com"
        sampleWorld).1.err ≠ some (.lookup e) :=
  Resolve_empty_result_fails (sampleEnv 1000 (.ok [])) mainResolver sampleCtx
    "example.com" sampleWorld rfl

/-- C9: when the lookup succeeds and Resolve returns a nil error, the returned IP is the
IP of an entry of the lookup result, or is `To4` of an entry that has 16 bytes in
IPv4-mapped form, namely its bytes 12 to 15; and a returned IP that is an IPv4 address
has exactly 4 bytes. -/
theorem Resolve_never_fabricates (env : Env) (r : CustomResolver) (ctx : Context)
    (name : String) (w : World) (addrs : List IPAddr)
    (hlook : (r.query env ctx name w).outcome = .ok addrs)
    (hok : (r.Resolve env ctx name w).1.err = none) :
    ((∃ a ∈ addrs, (r.Resolve env ctx name w).1.ip = a.IP) ∨
     (∃ a ∈ addrs, ∃ bs, a.IP = some bs ∧ bs.length = 16 ∧ isZeros (bs.take 10) = true ∧
        bs.get? 10 = some 0xff ∧ bs.get? 11 = some 0xff ∧
        (r.Resolve env ctx name w).1.ip = To4 a.IP ∧
        (r.Resolve env ctx name w).1.ip = some ((bs.drop 12).take 4))) ∧
    (isIPv4 (r.Resolve env ctx name w).1.ip → ipLen (r.Resolve env ctx name w).1.ip = 4) := by
  have hres := Resolve_result env r ctx name w
  rw [hlook] at hres
  cases hr : rangeAddrs addrs with
  | some v =>
    obtain ⟨i, hi, hv, _⟩ := rangeAddrs_eq_some addrs v hr
    have hlen := To4_length _ v hv
    rw [hres, choose_ok_some _ addrs v hr]
    refine ⟨?_, fun _ => by simpa [ipLen] using hlen⟩
    rcases To4_cases _ v hv with ⟨hsame, _⟩ | ⟨bs, hbs, h16, hz, h10, h11, hvb⟩
    · exact Or.inl ⟨addrs[i], List.getElem_mem _, hsame.symm⟩
    · exact Or.inr ⟨addrs[i], List.getElem_mem _, bs, hbs, h16, hz, h10, h11, hv.symm,
        by rw [hvb]⟩
  | none =>
    cases addrs with
    | nil =>
      rw [hres, choose_ok_nil] at hok
      cases hok
    | cons a rest =>
      rw [hres, choose_ok_cons _ a rest hr]
      refine ⟨Or.inl ⟨a, by simp, rfl⟩, fun h4 => ?_⟩
      exact absurd ((rangeAddrs_eq_none _).1 hr a (by simp)) h4

/-- Witness of C9 on a list whose first IPv4 entry is in 16-byte mapped form. -/
theorem Resolve_never_fabricates_witness :
    ((∃ a ∈ [sampleV6, sampleMapped],
        (mainResolver.Resolve (sampleEnv 1000 (.ok [sampleV6, sampleMapped]))
          sampleCtx "example.com" sampleWorld).1.ip = a.IP) ∨
     (∃ a ∈ [sampleV6, sampleMapped], ∃ bs, a.IP = some bs ∧ bs.length = 16 ∧
        isZeros (bs.take 10) = true ∧ bs.get? 10 = some 0xff ∧ bs.get? 11 = some 0xff ∧
        (mainResolver.Resolve (sampleEnv 1000 (.ok [sampleV6, sampleMapped]))
          sampleCtx "example.com" sampleWorld).1.ip = To4 a.IP ∧
        (mainResolver.Resolve (sampleEnv 1000 (.ok [sampleV6, sampleMapped]))
          sampleCtx "example.com" sampleWorld).1.ip = some ((bs.drop 12).take 4))) ∧
    (isIPv4 (mainResolver.Resolve (sampleEnv 1000 (.ok [sampleV6, sampleMapped]))
        sampleCtx "example.com" sampleWorld).1.ip →
      ipLen (mainResolver.Resolve (sampleEnv 1000 (.ok [sampleV6, sampleMapped]))
        sampleCtx "example.com" sampleWorld).1.ip = 4) :=
  Resolve_never_fabricates (sampleEnv 1000 (.ok [sampleV6, sampleMapped])) mainResolver
    sampleCtx "example.com" sampleWorld [sampleV6, sampleMapped] rfl rfl

/-! ## Errors of the lookup -/

/-- C8: for every lookup outcome, an error or a list of any length, Resolve returns
exactly one of an IP and an error: the error is nil if and only if the returned IP is
non-nil, and then it is non-empty. The one thing asked of the list is that the entry
the fallback returns, the first entry of a list without an IPv4 entry, has a non-empty
IP, as every address a lookup yields has. -/
theorem Resolve_ip_or_error (env : Env) (r : CustomResolver) (ctx : Context)
    (name : String) (w : World)
    (hfallback : ∀ a rest, (r.query env ctx name w).outcome = .ok (a :: rest) →
      (∀ b ∈ a :: rest, ¬ isIPv4 b.IP) → 0 < ipLen a.IP) :
    ((r.Resolve env ctx name w).1.err = none ↔ (r.Resolve env ctx name w).1.ip ≠ none) ∧
    ((r.Resolve env ctx name w).1.err = none ↔ 0 < ipLen (r.Resolve env ctx name w).1.ip) ∧
    ((r.Resolve env ctx name w).1.err ≠ none ↔ (r.Resolve env ctx name w).1.ip = none) := by
  have hres := Resolve_result env r ctx name w
  cases hq : (r.query env ctx name w).outcome with
  | error e =>
    rw [hq, choose_error] at hres
    rw [hres]
    simp [ipLen]
  | ok addrs =>
    rw [hq] at hres
    cases hr : rangeAddrs addrs with
    | some v =>
      obtain ⟨i, hi, hv, _⟩ := rangeAddrs_eq_some addrs v hr
      have hlen := To4_length _ v hv
      rw [hres, choose_ok_some _ addrs v hr]
      simp [ipLen, hlen]
    | none =>
      cases addrs with
      | nil =>
        rw [hres, choose_ok_nil]
        simp [ipLen]
      | cons a rest =>
        have hno4 : ∀ b ∈ a :: rest, ¬ isIPv4 b.IP := fun b hb =>
          by simpa [isIPv4] using (rangeAddrs_eq_none _).1 hr b hb
        have hpos := hfallback a rest hq hno4
        rw [hres, choose_ok_cons _ a rest hr]
        cases ha : a.IP with
        | none => simp [ha, ipLen] at hpos
        | some bs =>
          rw [ha] at hpos
          simp [hpos]

/-- Witness of C8 on the fallback path, for a list of two IPv6 addresses. -/
theorem Resolve_ip_or_error_witness :
    ((mainResolver.Resolve (sampleEnv 1000 (.ok [sampleV6, sampleV6b])) sampleCtx
        "example.com" sampleWorld).1.err = none ↔
      (mainResolver.Resolve (sampleEnv 1000 (.ok [sampleV6, sampleV6b])) sampleCtx
        "example.com" sampleWorld).1.ip ≠ none) ∧
    ((mainResolver.Resolve (sampleEnv 1000 (.ok [sampleV6, sampleV6b])) sampleCtx
        "example.com" sampleWorld).1.err = none ↔
      0 < ipLen (mainResolver.Resolve (sampleEnv 1000 (.ok [sampleV6, sampleV6b])) sampleCtx
        "example.com" sampleWorld).1.ip) ∧
    ((mainResolver.Resolve (sampleEnv 1000 (.ok [sampleV6, sampleV6b])) sampleCtx
        "example.com" sampleWorld).1.err ≠ none ↔
      (mainResolver.Resolve (sampleEnv 1000 (.ok [sampleV6, sampleV6b])) sampleCtx
        "example.com" sampleWorld).1.ip = none) :=
  Resolve_ip_or_error (sampleEnv 1000 (.ok [sampleV6, sampleV6b])) mainResolver sampleCtx
    "example.com" sampleWorld (fun a rest h _ => by
      have h2 : (Except.ok [sampleV6, sampleV6b] : Except LookupError (List IPAddr))
          = .ok (a :: rest) := h
      cases h2
      decide)

/-! ## The deadline and the returned context -/

/-- C6: the one lookup Resolve performs runs under the derived context, whose deadline is
the earlier of the deadline of the caller (when it has one) and the instant of the call
plus 5 seconds. -/
theorem Resolve_lookup_deadline (env : Env) (r : CustomResolver) (ctx : Context)
    (name : String) (w : World) :
    (r.Resolve env ctx name w).2.lookups =
      w.lookups ++ [((r.query env ctx name w).ctx, name)] ∧
    (r.query env ctx name w).ctx.Deadline =
      some (match ctx.Deadline with
        | some cd => min cd (w.now + 5 * Second)
        | none => w.now + 5 * Second) ∧
    ∃ d, (r.query env ctx name w).ctx.Deadline = some d ∧ d ≤ w.now + 5 * Second ∧
      match ctx.Deadline with
      | some cd => d ≤ cd
      | none => True := by
  have hdl := WithTimeout_Deadline ctx (5 * Second) w
  refine ⟨?_, hdl, ?_⟩
  · rw [Resolve_world]
    simp [cancelKey, LookupIPAddr_lookups]
  · rw [query_ctx, hdl]
    cases ctx.Deadline with
    | none => exact ⟨_, rfl, le_refl _, trivial⟩
    | some cd => exact ⟨_, rfl, min_le_right _ _, min_le_left _ _⟩

/-- C10: on every return path the context Resolve hands back is the context derived by
`WithTimeout(ctx, 5s)`, a child of the context of the caller and different from it; the
deferred cancel has run on it, so it is done when the caller receives it; and no cancel
function of the context of the caller has been run by Resolve. -/
theorem Resolve_returns_cancelled_child (env : Env) (r : CustomResolver) (ctx : Context)
    (name : String) (w : World) (hfresh : ctx.keysBelow w.nextKey = true) :
    (r.Resolve env ctx name w).1.ctx = (WithTimeout ctx (5 * Second) w).1 ∧
    ((r.Resolve env ctx name w).1.ctx = .cancelCtx ctx w.nextKey ∨
      (r.Resolve env ctx name w).1.ctx = .timerCtx ctx w.nextKey (w.now + 5 * Second)) ∧
    (r.Resolve env ctx name w).1.ctx ≠ ctx ∧
    (r.Resolve env ctx name w).2.cancelled = w.nextKey :: w.cancelled ∧
    (r.Resolve env ctx name w).1.ctx.canceled (r.Resolve env ctx name w).2.cancelled = true ∧
    (r.Resolve env ctx name w).1.ctx.Done (r.Resolve env ctx name w).2 = true ∧
    ctx.canceled (r.Resolve env ctx name w).2.cancelled = ctx.canceled w.cancelled := by
  have hctx : (r.Resolve env ctx name w).1.ctx = (WithTimeout ctx (5 * Second) w).1 := by
    rw [Resolve_result, choose_ctx, query_ctx]
  have hcan : (r.Resolve env ctx name w).2.cancelled = w.nextKey :: w.cancelled := by
    rw [Resolve_world]
    simp [cancelKey, LookupIPAddr_cancelled]
  have hchild := WithTimeout_child ctx (5 * Second) w
  rw [← hctx] at hchild
  have hdone : (r.Resolve env ctx name w).1.ctx.canceled
      (r.Resolve env ctx name w).2.cancelled = true := by
    rw [hcan]
    rcases hchild with h | h <;> rw [h] <;> simp [Context.canceled]
  refine ⟨hctx, hchild, ?_, hcan, hdone, ?_, ?_⟩
  · rcases hchild with h | h <;> rw [h]
    · exact cancelCtx_ne_parent ctx _
    · exact timerCtx_ne_parent ctx _ _
  · simp [Context.Done, hdone]
  · rw [hcan]
    exact canceled_of_keysBelow ctx _ _ hfresh

/-- Witness of C10 on the return path of a lookup error, for a caller context with a
deadline. -/
theorem Resolve_returns_cancelled_child_witness :
    (mainResolver.Resolve (sampleEnv 1000 (.error sampleCanceled)) sampleCtx "example.com"
        sampleWorld).1.ctx = (WithTimeout sampleCtx (5 * Second) sampleWorld).1 ∧
    ((mainResolver.Resolve (sampleEnv 1000 (.error sampleCanceled)) sampleCtx "example.com"
        sampleWorld).1.ctx = .cancelCtx sampleCtx sampleWorld.nextKey ∨
      (mainResolver.Resolve (sampleEnv 1000 (.error sampleCanceled)) sampleCtx "example.com"
        sampleWorld).1.ctx =
          .timerCtx sampleCtx sampleWorld.nextKey (sampleWorld.now + 5 * Second)) ∧
    (mainResolver.Resolve (sampleEnv 1000 (.error sampleCanceled)) sampleCtx "example.com"
        sampleWorld).1.ctx ≠ sampleCtx ∧
    (mainResolver.Resolve (sampleEnv 1000 (.error sampleCanceled)) sampleCtx "example.com"
        sampleWorld).2.cancelled = sampleWorld.nextKey :: sampleWorld.cancelled ∧
    (mainResolver.Resolve (sampleEnv 1000 (.error sampleCanceled)) sampleCtx "example.com"
        sampleWorld).1.ctx.canceled
      (mainResolver.Resolve (sampleEnv 1000 (.error sampleCanceled)) sampleCtx "example.com"
        sampleWorld).2.cancelled = true ∧
    (mainResolver.Resolve (sampleEnv 1000 (.error sampleCanceled)) sampleCtx "example.com"
        sampleWorld).1.ctx.Done
      (mainResolver.Resolve (sampleEnv 1000 (.error sampleCanceled)) sampleCtx "example.com"
        sampleWorld).2 = true ∧
    sampleCtx.canceled
      (mainResolver.Resolve (sampleEnv 1000 (.error sampleCanceled)) sampleCtx "example.com"
        sampleWorld).2.cancelled = sampleCtx.canceled sampleWorld.cancelled :=
  Resolve_returns_cancelled_child (sampleEnv 1000 (.error sampleCanceled)) mainResolver
    sampleCtx "example.com" sampleWorld (by decide)

/-! ## The upstream transport -/

/-- C7, amended: the DNS server address is configuration, the protocol is not. For every
CustomResolver value and every (network, address) pair the lookup machinery asks to
dial, the `Dial` closure answers with a dial call to `r.upstreamDNS` over "udp"; the
dial calls Resolve makes are exactly the answers of the closure to what the machinery
asks, so every one of them goes to `r.upstreamDNS` over "udp", with a 3 second dial
timeout. -/
theorem Resolve_dials_upstream_over_udp (env : Env) (r : CustomResolver) (ctx : Context)
    (name : String) (w : World) :
    (∀ c network address,
      (r.resolver.Dial c network address).address = r.upstreamDNS ∧
      (r.resolver.Dial c network address).network = "udp") ∧
    (r.Resolve env ctx name w).2.dialled =
      w.dialled ++ (env.asks (r.query env ctx name w).ctx name).map
        (fun a => r.resolver.Dial a.1 a.2.1 a.2.2) ∧
    ∃ made, (r.Resolve env ctx name w).2.dialled = w.dialled ++ made ∧
      made.length = (env.asks (r.query env ctx name w).ctx name).length ∧
      ∀ c ∈ made, c.address = r.upstreamDNS ∧ c.network = "udp" ∧
        c.timeout = 3 * Second := by
  have hd : (r.Resolve env ctx name w).2.dialled =
      w.dialled ++ (env.asks (r.query env ctx name w).ctx name).map
        (fun a => r.resolver.Dial a.1 a.2.1 a.2.2) := by
    rw [Resolve_world]
    simp [cancelKey, LookupIPAddr_dialled, Resolver.dials]
  refine ⟨fun c network address => ⟨rfl, rfl⟩, hd, _, hd, by simp, ?_⟩
  intro c hc
  obtain ⟨a, _, ha⟩ := List.mem_map.1 hc
  subst ha
  exact ⟨rfl, rfl, rfl⟩

/-- C7 as stated fails: the protocol does not depend on the configuration. Asked for a
TCP connection, the resolver main.go configures dials over "udp", and no two
CustomResolver values ever dial over different protocols. -/
theorem Dial_protocol_is_fixed :
    (mainResolver.resolver.Dial .background "tcp" "192.168.1.1:53").network = "udp" ∧
    ¬ ∃ r₁ r₂ : CustomResolver, ∃ c : Context, ∃ network address : String,
      (r₁.resolver.Dial c network address).network ≠
        (r₂.resolver.Dial c network address).network := by
  refine ⟨rfl, ?_⟩
  rintro ⟨r₁, r₂, c, network, address, h⟩
  exact h rfl

end TinyProxy
